import Mathlib

/-!
Shallow embedding of the crawler in src/WS.py (class AdvancedScraper).

External collaborators (the HTTP client, BeautifulSoup DOM access, the
regex engine, urljoin, the clock) are modelled as oracle parameters; every
branch, filter and state update of the source itself is translated
directly.  Strings stand for Python strings, `List String` for the
visited set (elements kept distinct by the source's check-then-add),
`Option` for Python None.
-/

/-- Characters Python urlparse accepts inside a URL scheme. -/
def isSchemeChar (c : Char) : Bool :=
  c.isAlphanum || c == '+' || c == '-' || c == '.'

/-- Strip a leading "scheme:" prefix, as urlparse does for absolute URLs. -/
def schemeSplit (cs : List Char) : List Char :=
  match cs.span (fun c => !(c == ':')) with
  | (c :: pre, ':' :: rest) =>
      if c.isAlpha && (c :: pre).all isSchemeChar then rest else cs
  | _ => cs

/-- urlparse(url).netloc for http-style URLs: the authority component after
"//", ending at the first of the characters slash, question mark, hash;
empty when the URL has no "//" authority marker. -/
def netlocChars (cs : List Char) : List Char :=
  match schemeSplit cs with
  | '/' :: '/' :: rest =>
      rest.takeWhile (fun c => !(c == '/') && !(c == '?') && !(c == '#'))
  | _ => []

def netloc (s : String) : String := ⟨netlocChars s.toList⟩

/-- urlparse(url).path for http-style URLs: what follows the authority,
ending at the first of question mark or hash. -/
def urlPathChars (cs : List Char) : List Char :=
  let r := schemeSplit cs
  let afterAuthority :=
    match r with
    | '/' :: '/' :: rest =>
        rest.dropWhile (fun c => !(c == '/') && !(c == '?') && !(c == '#'))
    | _ => r
  afterAuthority.takeWhile (fun c => !(c == '?') && !(c == '#'))

def urlPath (s : String) : String := ⟨urlPathChars s.toList⟩

/-- Outcome of one HTTP GET, as seen just inside fetch_page (line 59):
either a response with a status code and body text, or a raised exception
(timeout, connection error, ...) caught by the except on line 65. -/
inductive NetOutcome where
  | response (status : Nat) (body : String)
  | failure (detail : String)
deriving DecidableEq, Repr

/-- Log events fetch_page emits (lines 63 and 66). -/
inductive LogEvent where
  | warnBadStatus (url : String) (status : Nat)
  | errNetwork (url : String) (detail : String)
deriving DecidableEq, Repr

/-- fetch_page, lines 47-67: on status 200 return the body text; on any
other status log a warning and return None; on any exception log an error
and return None.  The try/except wrapping the whole body makes the
function total: nothing escapes the fetch boundary. -/
def fetch_page (outcome : NetOutcome) (url : String) : Option String × List LogEvent :=
  match outcome with
  | .response status body =>
      if status == 200 then (some body, [])
      else (none, [.warnBadStatus url status])
  | .failure detail => (none, [.errNetwork url detail])

structure Link where
  text : String
  url : String
deriving DecidableEq, Repr

structure FormInput where
  name : Option String
  type : Option String
  id : Option String
deriving DecidableEq, Repr

structure FormData where
  action : Option String
  method : Option String
  inputs : List FormInput
deriving DecidableEq, Repr

/-- Raw attributes of one meta element as BeautifulSoup exposes them. -/
structure RawMeta where
  name : Option String
  property : Option String
  content : Option String
deriving DecidableEq, Repr

/-- The page_data dict built by parse_page, lines 74-83. -/
structure PageRecord where
  url : String
  timestamp : String
  title : Option String
  links : List Link
  emails : List String
  phones : List String
  forms : List FormData
  metadata : List (String × String)
deriving DecidableEq, Repr

/-- The DOM / regex capabilities parse_page delegates to BeautifulSoup and
re.findall; pure functions of the raw HTML text. -/
structure DomOracle where
  findTitle : String → Option String
  findLinks : String → List (String × Option String)
  findForms : String → List FormData
  findMetas : String → List RawMeta
  emailMatches : String → List String
  phoneMatches : String → List String

/-- Everything one crawl run reads from the outside world. -/
structure CrawlEnv where
  base_url : String
  net : String → NetOutcome
  dom : DomOracle
  urljoinO : String → String → String
  now : String

/-- Python dict assignment metadata[name] = content: overwrite in place
when the key exists, else append (insertion order preserved). -/
def metaInsert (m : List (String × String)) (k v : String) : List (String × String) :=
  if m.any (fun p => p.1 == k) then
    m.map (fun p => if p.1 == k then (k, v) else p)
  else m ++ [(k, v)]

/-- The record-building body of parse_page, lines 73-129, reached when the
html argument is truthy.  Anchor handling mirrors lines 86-93: only hrefs
that are present and non-empty produce a link, resolved with urljoin.
Emails and phones are the regex matches with list(set(...)) dedup; the
model keeps first occurrences (the source leaves the order unspecified). -/
def parse_record (env : CrawlEnv) (html : String) (url : String) : PageRecord :=
  { url := url
    timestamp := env.now
    title := env.dom.findTitle html
    links := (env.dom.findLinks html).filterMap (fun p =>
      match p.2 with
      | some href => if href == "" then none else some ⟨p.1, env.urljoinO url href⟩
      | none => none)
    emails := (env.dom.emailMatches html).dedup
    phones := (env.dom.phoneMatches html).dedup
    forms := env.dom.findForms html
    metadata := (env.dom.findMetas html).foldl (fun m r =>
      let nm := r.name.getD (r.property.getD "")
      let ct := r.content.getD ""
      if nm != "" && ct != "" then metaInsert m nm ct else m) [] }

/-- Result of parse_page: the early return [] on falsy html (line 71), or
the page_data dict. -/
inductive ParseResult where
  | emptyList
  | record (r : PageRecord)
deriving DecidableEq, Repr

def ParseResult.isRecord : ParseResult → Bool
  | .emptyList => false
  | .record _ => true

/-- Python truthiness test `if not html:` on an Optional string. -/
def notHtml : Option String → Bool
  | none => true
  | some s => s == ""

/-- parse_page, lines 69-129. -/
def parse_page (env : CrawlEnv) (html : Option String) (url : String) : ParseResult :=
  if notHtml html then .emptyList
  else .record (parse_record env (html.getD "") url)

/-- Python str.endswith: exact, case-sensitive character-suffix test. -/
def strEndsWith (s e : String) : Bool := e.toList.isSuffixOf s.toList

/-- File extensions filtered by should_crawl, line 163. -/
def skipExts : List String := [".pdf", ".jpg", ".png", ".gif"]

/-- should_crawl, lines 157-164: same netloc as the base URL, not already
visited, and the URL string does not end with a filtered extension. -/
def should_crawl (base_url : String) (visited : List String) (url : String) : Bool :=
  (netloc url == netloc base_url) &&
  !(decide (url ∈ visited)) &&
  !(skipExts.any (fun e => strEndsWith url e))

/-- State threaded through the crawl loop: the visited set, the pending
queue, the collected page_data list, plus two observation traces: the URLs
passed to fetch_page and the number of politeness sleeps (line 155). -/
structure CrawlState where
  visited : List String
  queue : List String
  data : List PageRecord
  fetches : List String
  sleeps : Nat
deriving DecidableEq, Repr

/-- set.add on the visited set. -/
def addVisited (v : List String) (u : String) : List String :=
  if u ∈ v then v else u :: v

/-- Lines 146-153: when html is truthy, parse it, append the record, and
enqueue every extracted link URL passing should_crawl (checked against the
visited set already containing the current URL). -/
def processFetched (env : CrawlEnv) (s1 : CrawlState) (current_url : String)
    (html : Option String) : CrawlState :=
  if notHtml html then s1
  else
    let pd := parse_record env (html.getD "") current_url
    { s1 with
      data := s1.data ++ [pd]
      queue := s1.queue ++
        (pd.links.map Link.url).filter (fun u => should_crawl env.base_url s1.visited u) }

/-- One iteration of the while loop body, lines 137-155: pop the front;
if already visited, continue (skipping fetch and sleep); otherwise add to
visited, fetch, process the result, and sleep. -/
def crawlStep (env : CrawlEnv) (s : CrawlState) : CrawlState :=
  match s.queue with
  | [] => s
  | current_url :: rest =>
    if current_url ∈ s.visited then { s with queue := rest }
    else
      let s1 : CrawlState :=
        { s with
          queue := rest
          visited := addVisited s.visited current_url
          fetches := s.fetches ++ [current_url] }
      let s2 := processFetched env s1 current_url (fetch_page (env.net current_url) current_url).1
      { s2 with sleeps := s2.sleeps + 1 }

/-- The while condition, line 136. -/
def crawlGuard (maxPages : Option Nat) (s : CrawlState) : Bool :=
  !s.queue.isEmpty &&
  (match maxPages with
   | none => true
   | some n => decide (s.visited.length < n))

/-- The crawl loop, lines 135-155, with explicit fuel bounding the number
of iterations (the source loop may run unboundedly). -/
def crawlLoop (env : CrawlEnv) (maxPages : Option Nat) : Nat → CrawlState → CrawlState
  | 0, s => s
  | fuel + 1, s =>
      if crawlGuard maxPages s then crawlLoop env maxPages fuel (crawlStep env s)
      else s

/-- State at line 135: queue = [base_url], everything else empty. -/
def initState (base : String) : CrawlState :=
  { visited := [], queue := [base], data := [], fetches := [], sleeps := 0 }

/-- Proxy list plus cursor (fields proxies and current_proxy of the
scraper; current_proxy starts at 0 in the constructor, line 25). -/
structure ProxyState where
  proxies : List String
  current : Nat
deriving DecidableEq, Repr

/-- load_proxies, lines 34-39: the file content, or none when the file is
absent (FileNotFoundError).  Lines are stripped and empty ones dropped. -/
def load_proxies (file : Option String) : List String :=
  match file with
  | none => []
  | some content => ((content.splitOn "\n").map String.trim).filter (fun l => l != "")

/-- rotate_proxy, lines 41-45: when the list is non-empty, advance the
cursor circularly and return the endpoint at the new cursor; otherwise
return None.  The new cursor is always in range, so list indexing is the
total getElem? here. -/
def rotate_proxy (p : ProxyState) : ProxyState × Option String :=
  if p.proxies = [] then (p, none)
  else
    let c := (p.current + 1) % p.proxies.length
    ({ p with current := c }, p.proxies[c]?)

/-- n successive rotate_proxy calls (state part). -/
def rotateN : Nat → ProxyState → ProxyState
  | 0, p => p
  | n + 1, p => rotateN n (rotate_proxy p).1

/-- Line 132: the single per-session proxy choice made by crawl. -/
def crawl_connector (p : ProxyState) : Option String :=
  if p.proxies = [] then none else (rotate_proxy p).2

/-- The summary dict built by export_data, lines 178-186. -/
structure Summary where
  pages_scraped : Nat
  total_links : Nat
  total_emails : Nat
  total_phones : Nat
  total_forms : Nat
  start_time : String
  end_time : String
deriving DecidableEq, Repr

/-- Python min over a list of strings (lexicographic); none models the
ValueError raised on an empty sequence. -/
def strMin : List String → Option String
  | [] => none
  | x :: xs =>
      match strMin xs with
      | none => some x
      | some m => some (if x ≤ m then x else m)

/-- Python max over a list of strings; none models the ValueError raised
on an empty sequence. -/
def strMax : List String → Option String
  | [] => none
  | x :: xs =>
      match strMax xs with
      | none => some x
      | some m => some (if m ≤ x then x else m)

/-- Files export_data writes, in order. -/
inductive Artifact where
  | jsonDump (records : List PageRecord)
  | csvDump (records : List PageRecord)
  | summaryFile (s : Summary)
deriving DecidableEq, Repr

inductive ExportErr where
  | emptyAggregate
deriving DecidableEq, Repr

/-- export_data, lines 166-189: write the JSON dump, write the CSV, then
build the summary dict; min over the timestamps (line 184) raises a
ValueError when data is empty, so in that case only the first two
artifacts exist and no summary file is written. -/
def export_data (visited : List String) (data : List PageRecord) :
    List Artifact × Option ExportErr :=
  let pre : List Artifact := [.jsonDump data, .csvDump data]
  match strMin (data.map PageRecord.timestamp), strMax (data.map PageRecord.timestamp) with
  | some mn, some mx =>
      (pre ++ [.summaryFile
        { pages_scraped := visited.length
          total_links := (data.map (fun d => d.links.length)).sum
          total_emails := (data.map (fun d => d.emails.length)).sum
          total_phones := (data.map (fun d => d.phones.length)).sum
          total_forms := (data.map (fun d => d.forms.length)).sum
          start_time := mn
          end_time := mx }], none)
  | _, _ => (pre, some .emptyAggregate)

/-!  Concrete environments used for counterexamples and witnesses. -/

def demoBase : String := "http://example.test/"
def demoPage : String := "PAGE"
def demoLinkA : String := "http://example.test/a"

/-- DOM oracle for the duplicate-link scenario: the seed page contains two
anchors pointing at the same same-origin URL. -/
def demoDom : DomOracle :=
  { findTitle := fun _ => none
    findLinks := fun h =>
      if h == demoPage then [("x", some demoLinkA), ("y", some demoLinkA)] else []
    findForms := fun _ => []
    findMetas := fun _ => []
    emailMatches := fun _ => []
    phoneMatches := fun _ => [] }

def demoNet : String → NetOutcome := fun u =>
  if u == demoBase then .response 200 demoPage
  else if u == demoLinkA then .response 404 ""
  else .failure "connection refused"

def demoEnv : CrawlEnv :=
  { base_url := demoBase
    net := demoNet
    dom := demoDom
    urljoinO := fun _ href => href
    now := "2026-01-01T00:00:00" }

def pdfQueryUrl : String := "http://example.test/doc.pdf?x=1"

/-- DOM oracle for the extension-filter scenario: the seed page links to a
same-origin URL whose path ends in .pdf but which carries a query string. -/
def pdfDom : DomOracle :=
  { findTitle := fun _ => none
    findLinks := fun h => if h == demoPage then [("d", some pdfQueryUrl)] else []
    findForms := fun _ => []
    findMetas := fun _ => []
    emailMatches := fun _ => []
    phoneMatches := fun _ => [] }

def pdfEnv : CrawlEnv :=
  { base_url := demoBase
    net := fun u => if u == demoBase then .response 200 demoPage else .failure "x"
    dom := pdfDom
    urljoinO := fun _ href => href
    now := "2026-01-01T00:00:00" }

/-- A concrete PageRecord used to exercise export_data. -/
def demoRecord : PageRecord :=
  { url := demoBase
    timestamp := "2026-01-01T00:00:00"
    title := none
    links := []
    emails := []
    phones := []
    forms := []
    metadata := [] }


/-!  Helper lemmas about the embedded operations. -/

theorem addVisited_mem_self (v : List String) (u : String) : u ∈ addVisited v u := by
  unfold addVisited; split
  · assumption
  · exact List.mem_cons_self u v

theorem addVisited_mem_of (v : List String) (u x : String) (h : x ∈ v) :
    x ∈ addVisited v u := by
  unfold addVisited; split
  · exact h
  · exact List.mem_cons_of_mem u h

theorem addVisited_length_le (v : List String) (u : String) :
    (addVisited v u).length ≤ v.length + 1 := by
  unfold addVisited; split
  · omega
  · simp

theorem addVisited_mem_iff (v : List String) (u x : String) :
    x ∈ addVisited v u ↔ x = u ∨ x ∈ v := by
  unfold addVisited; split
  · rename_i h
    constructor
    · exact Or.inr
    · rintro (rfl | hx)
      · exact h
      · exact hx
  · simp [List.mem_cons]

theorem processFetched_visited (env : CrawlEnv) (s1 : CrawlState) (u : String)
    (html : Option String) : (processFetched env s1 u html).visited = s1.visited := by
  unfold processFetched; split <;> rfl

theorem processFetched_fetches (env : CrawlEnv) (s1 : CrawlState) (u : String)
    (html : Option String) : (processFetched env s1 u html).fetches = s1.fetches := by
  unfold processFetched; split <;> rfl

theorem processFetched_sleeps (env : CrawlEnv) (s1 : CrawlState) (u : String)
    (html : Option String) : (processFetched env s1 u html).sleeps = s1.sleeps := by
  unfold processFetched; split <;> rfl

theorem processFetched_frame (env : CrawlEnv) (s1 : CrawlState) (u : String)
    (html : Option String) (h : notHtml html = true) :
    processFetched env s1 u html = s1 := by
  unfold processFetched; rw [h]; simp

theorem processFetched_queue_mem (env : CrawlEnv) (s1 : CrawlState) (u : String)
    (html : Option String) (x : String) (hx : x ∈ (processFetched env s1 u html).queue) :
    x ∈ s1.queue ∨ should_crawl env.base_url s1.visited x = true := by
  unfold processFetched at hx
  split at hx
  · exact Or.inl hx
  · simp only [List.mem_append] at hx
    rcases hx with hx | hx
    · exact Or.inl hx
    · exact Or.inr (List.mem_filter.mp hx).2

theorem should_crawl_iff (b : String) (v : List String) (u : String) :
    should_crawl b v u = true ↔
      netloc u = netloc b ∧ u ∉ v ∧ ∀ e ∈ skipExts, strEndsWith u e = false := by
  simp [should_crawl, List.any_eq_true, Bool.not_eq_true, and_assoc]

theorem crawlStep_skip (env : CrawlEnv) (s : CrawlState) (u : String) (rest : List String)
    (hq : s.queue = u :: rest) (hv : u ∈ s.visited) :
    crawlStep env s = { s with queue := rest } := by
  unfold crawlStep; rw [hq]; simp [hv]

theorem crawlStep_go (env : CrawlEnv) (s : CrawlState) (u : String) (rest : List String)
    (hq : s.queue = u :: rest) (hv : u ∉ s.visited) :
    crawlStep env s =
      (let s1 : CrawlState :=
        { s with queue := rest, visited := addVisited s.visited u,
                 fetches := s.fetches ++ [u] }
       let s2 := processFetched env s1 u (fetch_page (env.net u) u).1
       { s2 with sleeps := s2.sleeps + 1 }) := by
  unfold crawlStep; rw [hq]; simp [hv]

theorem crawlStep_nil (env : CrawlEnv) (s : CrawlState) (hq : s.queue = []) :
    crawlStep env s = s := by
  unfold crawlStep; rw [hq]

theorem crawlStep_go_visited (env : CrawlEnv) (s : CrawlState) (u : String)
    (rest : List String) (hq : s.queue = u :: rest) (hv : u ∉ s.visited) :
    (crawlStep env s).visited = addVisited s.visited u := by
  rw [crawlStep_go env s u rest hq hv]
  dsimp only
  rw [processFetched_visited]

theorem crawlStep_go_fetches (env : CrawlEnv) (s : CrawlState) (u : String)
    (rest : List String) (hq : s.queue = u :: rest) (hv : u ∉ s.visited) :
    (crawlStep env s).fetches = s.fetches ++ [u] := by
  rw [crawlStep_go env s u rest hq hv]
  dsimp only
  rw [processFetched_fetches]

theorem crawlStep_go_sleeps (env : CrawlEnv) (s : CrawlState) (u : String)
    (rest : List String) (hq : s.queue = u :: rest) (hv : u ∉ s.visited) :
    (crawlStep env s).sleeps = s.sleeps + 1 := by
  rw [crawlStep_go env s u rest hq hv]
  dsimp only
  rw [processFetched_sleeps]

theorem crawlStep_go_failure (env : CrawlEnv) (s : CrawlState) (u : String)
    (rest : List String) (hq : s.queue = u :: rest) (hv : u ∉ s.visited)
    (hf : notHtml (fetch_page (env.net u) u).1 = true) :
    crawlStep env s =
      { s with queue := rest, visited := addVisited s.visited u,
               fetches := s.fetches ++ [u], sleeps := s.sleeps + 1 } := by
  rw [crawlStep_go env s u rest hq hv]
  dsimp only
  rw [processFetched_frame _ _ _ _ hf]

theorem crawlStep_visited_mono (env : CrawlEnv) (s : CrawlState) (x : String)
    (hx : x ∈ s.visited) : x ∈ (crawlStep env s).visited := by
  rcases hq : s.queue with _ | ⟨u, rest⟩
  · rw [crawlStep_nil env s hq]; exact hx
  · by_cases hv : u ∈ s.visited
    · rw [crawlStep_skip env s u rest hq hv]; exact hx
    · rw [crawlStep_go_visited env s u rest hq hv]
      exact addVisited_mem_of _ _ _ hx

theorem crawlStep_visited_length (env : CrawlEnv) (s : CrawlState) :
    (crawlStep env s).visited.length ≤ s.visited.length + 1 := by
  rcases hq : s.queue with _ | ⟨u, rest⟩
  · rw [crawlStep_nil env s hq]; omega
  · by_cases hv : u ∈ s.visited
    · rw [crawlStep_skip env s u rest hq hv]; exact Nat.le_succ _
    · rw [crawlStep_go_visited env s u rest hq hv]
      exact addVisited_length_le _ _

theorem crawlStep_queue_mem (env : CrawlEnv) (s : CrawlState) (x : String)
    (hx : x ∈ (crawlStep env s).queue) :
    x ∈ s.queue ∨ should_crawl env.base_url (crawlStep env s).visited x = true := by
  rcases hq : s.queue with _ | ⟨u, rest⟩
  · rw [crawlStep_nil env s hq] at hx ⊢
    rw [hq] at hx
    exact Or.inl hx
  · by_cases hv : u ∈ s.visited
    · rw [crawlStep_skip env s u rest hq hv] at hx
      exact Or.inl (List.mem_cons_of_mem u hx)
    · rw [crawlStep_go env s u rest hq hv] at hx
      rw [crawlStep_go_visited env s u rest hq hv]
      dsimp only at hx
      rcases processFetched_queue_mem _ _ _ _ _ hx with h | h
      · exact Or.inl (hq ▸ List.mem_cons_of_mem u h)
      · exact Or.inr h

theorem crawlStep_inv (env : CrawlEnv) (s : CrawlState)
    (h1 : ∀ x ∈ s.fetches, x ∈ s.visited) (h2 : s.fetches.Nodup) :
    (∀ x ∈ (crawlStep env s).fetches, x ∈ (crawlStep env s).visited) ∧
    (crawlStep env s).fetches.Nodup := by
  rcases hq : s.queue with _ | ⟨u, rest⟩
  · rw [crawlStep_nil env s hq]; exact ⟨h1, h2⟩
  · by_cases hv : u ∈ s.visited
    · rw [crawlStep_skip env s u rest hq hv]; exact ⟨h1, h2⟩
    · rw [crawlStep_go_fetches env s u rest hq hv,
          crawlStep_go_visited env s u rest hq hv]
      have hu : u ∉ s.fetches := fun hc => hv (h1 u hc)
      constructor
      · intro x hx
        rcases List.mem_append.mp hx with hx | hx
        · exact addVisited_mem_of _ _ _ (h1 x hx)
        · rcases List.mem_singleton.mp hx with rfl
          exact addVisited_mem_self _ _
      · simp only [List.nodup_append, List.nodup_cons, List.nodup_nil,
          List.disjoint_singleton]
        exact ⟨h2, by simp, by simpa using hu⟩

theorem crawlGuard_lt (N : Nat) (s : CrawlState) (h : crawlGuard (some N) s = true) :
    s.visited.length < N := by
  simp [crawlGuard] at h
  exact h.2

theorem crawlGuard_zero (s : CrawlState) : crawlGuard (some 0) s = false := by
  simp [crawlGuard]

theorem crawlLoop_zero_max (env : CrawlEnv) (fuel : Nat) (s : CrawlState) :
    crawlLoop env (some 0) fuel s = s := by
  induction fuel with
  | zero => rfl
  | succ n ih => simp [crawlLoop, crawlGuard_zero]

theorem crawlLoop_visited_bound (env : CrawlEnv) (N : Nat) (fuel : Nat) :
    ∀ s : CrawlState, s.visited.length ≤ N →
      (crawlLoop env (some N) fuel s).visited.length ≤ N := by
  induction fuel with
  | zero => intro s h; exact h
  | succ n ih =>
    intro s h
    rw [crawlLoop]
    by_cases hg : crawlGuard (some N) s = true
    · rw [if_pos hg]
      apply ih
      have h1 := crawlGuard_lt N s hg
      have h2 := crawlStep_visited_length env s
      omega
    · rw [if_neg hg]
      exact h

theorem crawlLoop_visited_mono (env : CrawlEnv) (mp : Option Nat) (fuel : Nat) :
    ∀ s : CrawlState, ∀ x, x ∈ s.visited → x ∈ (crawlLoop env mp fuel s).visited := by
  induction fuel with
  | zero => intro s x hx; exact hx
  | succ n ih =>
    intro s x hx
    rw [crawlLoop]
    by_cases hg : crawlGuard mp s = true
    · rw [if_pos hg]
      exact ih _ x (crawlStep_visited_mono env s x hx)
    · rw [if_neg hg]
      exact hx

theorem crawlLoop_inv (env : CrawlEnv) (mp : Option Nat) (fuel : Nat) :
    ∀ s : CrawlState, (∀ x ∈ s.fetches, x ∈ s.visited) → s.fetches.Nodup →
      (∀ x ∈ (crawlLoop env mp fuel s).fetches, x ∈ (crawlLoop env mp fuel s).visited) ∧
      (crawlLoop env mp fuel s).fetches.Nodup := by
  induction fuel with
  | zero => intro s h1 h2; exact ⟨h1, h2⟩
  | succ n ih =>
    intro s h1 h2
    rw [crawlLoop]
    by_cases hg : crawlGuard mp s = true
    · rw [if_pos hg]
      obtain ⟨g1, g2⟩ := crawlStep_inv env s h1 h2
      exact ih _ g1 g2
    · rw [if_neg hg]
      exact ⟨h1, h2⟩

theorem strMin_cons_some (x : String) (xs : List String) :
    ∃ m, strMin (x :: xs) = some m := by
  rw [strMin]
  cases strMin xs <;> exact ⟨_, rfl⟩

theorem strMax_cons_some (x : String) (xs : List String) :
    ∃ m, strMax (x :: xs) = some m := by
  rw [strMax]
  cases strMax xs <;> exact ⟨_, rfl⟩

theorem strMin_spec (l : List String) :
    ∀ m, strMin l = some m → m ∈ l ∧ ∀ x ∈ l, m ≤ x := by
  induction l with
  | nil => intro m h; simp [strMin] at h
  | cons a as ih =>
    intro m h
    rw [strMin] at h
    cases has : strMin as with
    | none =>
      rw [has] at h
      obtain rfl : a = m := Option.some.inj h
      have hnil : as = [] := by
        cases as with
        | nil => rfl
        | cons b bs =>
          exfalso
          obtain ⟨m', hm'⟩ := strMin_cons_some b bs
          rw [hm'] at has
          cases has
      subst hnil
      exact ⟨List.mem_singleton_self _, by
        intro x hx
        rw [List.mem_singleton] at hx
        subst hx
        exact le_refl _⟩
    | some m' =>
      rw [has] at h
      obtain ⟨hmem, hle⟩ := ih m' has
      have hm := Option.some.inj h
      by_cases hc : a ≤ m'
      · rw [if_pos hc] at hm
        subst hm
        refine ⟨List.mem_cons_self a as, ?_⟩
        intro x hx
        rcases List.mem_cons.mp hx with rfl | hx
        · exact le_refl _
        · exact le_trans hc (hle x hx)
      · rw [if_neg hc] at hm
        subst hm
        refine ⟨List.mem_cons_of_mem a hmem, ?_⟩
        intro x hx
        rcases List.mem_cons.mp hx with rfl | hx
        · exact le_of_not_le hc
        · exact hle x hx

theorem strMax_spec (l : List String) :
    ∀ m, strMax l = some m → m ∈ l ∧ ∀ x ∈ l, x ≤ m := by
  induction l with
  | nil => intro m h; simp [strMax] at h
  | cons a as ih =>
    intro m h
    rw [strMax] at h
    cases has : strMax as with
    | none =>
      rw [has] at h
      obtain rfl : a = m := Option.some.inj h
      have hnil : as = [] := by
        cases as with
        | nil => rfl
        | cons b bs =>
          exfalso
          obtain ⟨m', hm'⟩ := strMax_cons_some b bs
          rw [hm'] at has
          cases has
      subst hnil
      exact ⟨List.mem_singleton_self _, by
        intro x hx
        rw [List.mem_singleton] at hx
        subst hx
        exact le_refl _⟩
    | some m' =>
      rw [has] at h
      obtain ⟨hmem, hle⟩ := ih m' has
      have hm := Option.some.inj h
      by_cases hc : m' ≤ a
      · rw [if_pos hc] at hm
        subst hm
        refine ⟨List.mem_cons_self a as, ?_⟩
        intro x hx
        rcases List.mem_cons.mp hx with rfl | hx
        · exact le_refl _
        · exact le_trans (hle x hx) hc
      · rw [if_neg hc] at hm
        subst hm
        refine ⟨List.mem_cons_of_mem a hmem, ?_⟩
        intro x hx
        rcases List.mem_cons.mp hx with rfl | hx
        · exact le_of_not_le hc
        · exact hle x hx

theorem rotate_proxy_ne (p : ProxyState) (h : p.proxies ≠ []) :
    rotate_proxy p =
      ({ p with current := (p.current + 1) % p.proxies.length },
       p.proxies[(p.current + 1) % p.proxies.length]?) := by
  simp [rotate_proxy, h]

theorem rotateN_spec (k : Nat) :
    ∀ p : ProxyState, p.proxies ≠ [] → p.current < p.proxies.length →
      (rotateN k p).proxies = p.proxies ∧
      (rotateN k p).current = (p.current + k) % p.proxies.length := by
  induction k with
  | zero =>
    intro p h hc
    exact ⟨rfl, (Nat.mod_eq_of_lt hc).symm⟩
  | succ n ih =>
    intro p h hc
    rw [rotateN]
    have hst : (rotate_proxy p).1 =
        { p with current := (p.current + 1) % p.proxies.length } := by
      rw [rotate_proxy_ne p h]
    rw [hst]
    have hlen : 0 < p.proxies.length := List.length_pos.mpr h
    obtain ⟨hp, hcur⟩ :=
      ih { p with current := (p.current + 1) % p.proxies.length } h (Nat.mod_lt _ hlen)
    refine ⟨hp, ?_⟩
    rw [hcur]
    show ((p.current + 1) % p.proxies.length + n) % p.proxies.length = _
    rw [Nat.mod_add_mod]
    congr 1
    omega

/-!  Claim theorems. -/

/-- C1: with max_pages = N the crawl keeps the visited-set size at or
below N after any number of loop iterations, from any state already within
the bound; with N = 0 the loop exits before dequeuing anything, leaving
any state untouched, and in particular performs zero fetches from the
initial state. -/
theorem C1_page_ceiling (env : CrawlEnv) (N fuel : Nat) (s : CrawlState)
    (h : s.visited.length ≤ N) :
    (crawlLoop env (some N) fuel s).visited.length ≤ N ∧
    (∀ s0 : CrawlState, crawlLoop env (some 0) fuel s0 = s0) ∧
    (crawlLoop env (some 0) fuel (initState env.base_url)).fetches = [] := by
  refine ⟨crawlLoop_visited_bound env N fuel s h,
    fun s0 => crawlLoop_zero_max env fuel s0, ?_⟩
  rw [crawlLoop_zero_max]
  rfl

theorem C1_witness :
    (crawlLoop demoEnv (some 1) 5 (initState demoBase)).visited.length ≤ 1 ∧
    crawlLoop demoEnv (some 0) 5 (initState demoBase) = initState demoBase := by
  have h := C1_page_ceiling demoEnv 1 5 (initState demoBase) (by decide)
  exact ⟨h.1, h.2.1 (initState demoBase)⟩

/-- C2: a dequeued URL already in the visited set is skipped exactly (only
the queue front is removed; no fetch, no sleep, and no other state
change); an unvisited dequeued URL enters the visited set and is fetched
exactly once in that iteration regardless of the fetch outcome; visited
membership is preserved by any run; and a run whose fetch trace starts
consistent and duplicate-free never fetches any URL twice. -/
theorem C2_at_most_once (env : CrawlEnv) (s : CrawlState) (maxPages : Option Nat)
    (fuel : Nat) :
    (∀ url rest, s.queue = url :: rest → url ∈ s.visited →
        crawlStep env s = { s with queue := rest }) ∧
    (∀ url rest, s.queue = url :: rest → url ∉ s.visited →
        url ∈ (crawlStep env s).visited ∧
        (crawlStep env s).fetches = s.fetches ++ [url]) ∧
    (∀ x, x ∈ s.visited → x ∈ (crawlLoop env maxPages fuel s).visited) ∧
    ((∀ x ∈ s.fetches, x ∈ s.visited) → s.fetches.Nodup →
        (crawlLoop env maxPages fuel s).fetches.Nodup) := by
  refine ⟨?_, ?_, ?_, ?_⟩
  · intro url rest hq hv
    exact crawlStep_skip env s url rest hq hv
  · intro url rest hq hv
    refine ⟨?_, crawlStep_go_fetches env s url rest hq hv⟩
    rw [crawlStep_go_visited env s url rest hq hv]
    exact addVisited_mem_self _ _
  · intro x hx
    exact crawlLoop_visited_mono env maxPages fuel s x hx
  · intro h1 h2
    exact (crawlLoop_inv env maxPages fuel s h1 h2).2

theorem C2_witness :
    crawlStep demoEnv (crawlLoop demoEnv none 2 (initState demoBase)) =
      { crawlLoop demoEnv none 2 (initState demoBase) with queue := [] } ∧
    demoLinkA ∈ (crawlStep demoEnv (crawlLoop demoEnv none 1 (initState demoBase))).visited ∧
    (crawlLoop demoEnv none 5 (initState demoBase)).fetches.Nodup := by
  have h2 := C2_at_most_once demoEnv (crawlLoop demoEnv none 2 (initState demoBase)) none 0
  have h1 := C2_at_most_once demoEnv (crawlLoop demoEnv none 1 (initState demoBase)) none 0
  have h0 := C2_at_most_once demoEnv (initState demoBase) none 5
  refine ⟨?_, ?_, ?_⟩
  · exact h2.1 demoLinkA [] (by decide) (by decide)
  · exact (h1.2.1 demoLinkA [demoLinkA] (by decide) (by decide)).1
  · exact h0.2.2.2 (by intro x hx; simp [initState] at hx) (by simp [initState])

/-- C3 counterexample: the claim requires the extension filter to test the
URL path, but should_crawl tests the whole URL string; a same-origin URL
whose path ends in .pdf yet carries a query string passes should_crawl and
is enqueued by the crawl loop. -/
theorem C3_counterexample :
    (crawlLoop pdfEnv none 1 (initState demoBase)).queue = [pdfQueryUrl] ∧
    strEndsWith (urlPath pdfQueryUrl) ".pdf" = true ∧
    netloc pdfQueryUrl = netloc demoBase ∧
    should_crawl demoBase [] pdfQueryUrl = true := by
  exact ⟨by decide, by decide, by decide, by decide⟩

/-- C3 amended: should_crawl admits a candidate exactly when its netloc
equals the seed URL netloc, it is not in the visited set, and the full URL
string (not only its path) does not end in .pdf, .jpg, .png or .gif
(case-sensitive); consequently anything newly enqueued by a crawl step has
the seed netloc, is unvisited after the step, and its URL string ends in
none of those extensions. -/
theorem C3_enqueue_filter (b : String) (v : List String) (u : String) :
    (should_crawl b v u = true ↔
      netloc u = netloc b ∧ u ∉ v ∧ ∀ e ∈ skipExts, strEndsWith u e = false) ∧
    (∀ env : CrawlEnv, ∀ s : CrawlState, ∀ x : String,
      x ∈ (crawlStep env s).queue →
        x ∈ s.queue ∨
          (netloc x = netloc env.base_url ∧ x ∉ (crawlStep env s).visited ∧
           ∀ e ∈ skipExts, strEndsWith x e = false)) := by
  refine ⟨should_crawl_iff b v u, ?_⟩
  intro env s x hx
  rcases crawlStep_queue_mem env s x hx with h | h
  · exact Or.inl h
  · rw [should_crawl_iff] at h
    exact Or.inr h

theorem C3_witness :
    netloc demoLinkA = netloc demoBase ∧ strEndsWith demoLinkA ".pdf" = false := by
  have h := (C3_enqueue_filter demoBase [] demoLinkA).2 demoEnv (initState demoBase)
    demoLinkA (by decide)
  rcases h with h | h
  · exact absurd h (by decide)
  · exact ⟨h.1, h.2.2 ".pdf" (by decide)⟩

/-- C4: fetch_page returns the body exactly when the status is 200; any
other status yields None with a bad-status warning, and any transport
exception yields None with a network error, the function being total (no
exception escapes) and the crawl step performing exactly one fetch per
dequeued URL; the caller treats a None result as no content: nothing is
recorded or enqueued and the loop moves to the next entry. -/
theorem C4_fetch_contract (o : NetOutcome) (url : String) (env : CrawlEnv)
    (s : CrawlState) :
    (∀ b, (fetch_page o url).1 = some b ↔ o = .response 200 b) ∧
    (∀ st b, o = .response st b → st ≠ 200 →
        fetch_page o url = (none, [.warnBadStatus url st])) ∧
    (∀ d, o = .failure d → fetch_page o url = (none, [.errNetwork url d])) ∧
    (∀ rest, s.queue = url :: rest → url ∉ s.visited →
        (fetch_page (env.net url) url).1 = none →
        (crawlStep env s).data = s.data ∧
        (crawlStep env s).queue = rest ∧
        (crawlStep env s).fetches = s.fetches ++ [url] ∧
        (crawlStep env s).sleeps = s.sleeps + 1) := by
  refine ⟨?_, ?_, ?_, ?_⟩
  · intro b
    rcases o with ⟨st, bd⟩ | d
    · by_cases hst : st = 200
      · subst hst
        simp [fetch_page]
      · simp [fetch_page, hst]
    · simp [fetch_page]
  · intro st b ho hst
    subst ho
    simp [fetch_page, hst]
  · intro d ho
    subst ho
    rfl
  · intro rest hq hv hf
    have hfail : notHtml (fetch_page (env.net url) url).1 = true := by rw [hf]; rfl
    rw [crawlStep_go_failure env s url rest hq hv hfail]
    exact ⟨rfl, rfl, rfl, rfl⟩

theorem C4_witness :
    fetch_page (NetOutcome.response 404 "") demoLinkA =
      (none, [LogEvent.warnBadStatus demoLinkA 404]) ∧
    fetch_page (NetOutcome.failure "timeout") demoBase =
      (none, [LogEvent.errNetwork demoBase "timeout"]) ∧
    fetch_page (NetOutcome.response 200 demoPage) demoBase = (some demoPage, []) := by
  have h1 := C4_fetch_contract (NetOutcome.response 404 "") demoLinkA demoEnv
    (initState demoBase)
  have h2 := C4_fetch_contract (NetOutcome.failure "timeout") demoBase demoEnv
    (initState demoBase)
  have h3 := C4_fetch_contract (NetOutcome.response 200 demoPage) demoBase demoEnv
    (initState demoBase)
  refine ⟨h1.2.1 404 "" rfl (by decide), h2.2.2.1 "timeout" rfl, ?_⟩
  have hb := (h3.1 demoPage).mpr rfl
  cases hfp : fetch_page (NetOutcome.response 200 demoPage) demoBase with
  | mk fst snd =>
    rw [hfp] at hb
    simp at hb
    rw [hb]
    have : snd = [] := by
      have := congrArg Prod.snd hfp
      simpa [fetch_page] using this.symm
    rw [this]

/-- C5: when the fetch of a dequeued unvisited URL returns None (network
error or bad status), that iteration appends no record, enqueues nothing
(the queue is exactly the remaining entries), keeps the URL in the visited
set, and completes its politeness sleep so the crawl proceeds. -/
theorem C5_failure_frame (env : CrawlEnv) (s : CrawlState) (url : String)
    (rest : List String) (hq : s.queue = url :: rest) (hv : url ∉ s.visited)
    (hf : (fetch_page (env.net url) url).1 = none) :
    (crawlStep env s).data = s.data ∧
    (crawlStep env s).queue = rest ∧
    (crawlStep env s).visited = addVisited s.visited url ∧
    url ∈ (crawlStep env s).visited ∧
    (crawlStep env s).sleeps = s.sleeps + 1 := by
  have hfail : notHtml (fetch_page (env.net url) url).1 = true := by rw [hf]; rfl
  rw [crawlStep_go_failure env s url rest hq hv hfail]
  exact ⟨rfl, rfl, rfl, addVisited_mem_self _ _, rfl⟩

theorem C5_witness :
    (crawlStep demoEnv (crawlLoop demoEnv none 1 (initState demoBase))).data =
      (crawlLoop demoEnv none 1 (initState demoBase)).data ∧
    (crawlStep demoEnv (crawlLoop demoEnv none 1 (initState demoBase))).queue =
      [demoLinkA] ∧
    demoLinkA ∈ (crawlStep demoEnv (crawlLoop demoEnv none 1 (initState demoBase))).visited := by
  have h := C5_failure_frame demoEnv (crawlLoop demoEnv none 1 (initState demoBase))
    demoLinkA [demoLinkA] (by decide) (by decide) (by decide)
  exact ⟨h.1, h.2.1, h.2.2.2.1⟩

/-- C6 counterexample: on empty or absent HTML, parse_page does not return
a record at all (the claim says a record with empty fields is returned);
the early return on line 71 yields the bare empty list. -/
theorem C6_counterexample :
    (parse_page demoEnv (some "") "http://example.test/u").isRecord = false ∧
    (parse_page demoEnv none "http://example.test/u").isRecord = false := by
  exact ⟨rfl, rfl⟩

/-- C6 amended: parse_page applied to empty or absent HTML never fails,
but what it returns is the bare Python empty list (a value that is not a
PageRecord), rather than a record with no links, emails, phones, forms or
title. -/
theorem C6_empty_html (env : CrawlEnv) (html : Option String) (url : String)
    (h : notHtml html = true) :
    parse_page env html url = ParseResult.emptyList ∧
    (parse_page env html url).isRecord = false := by
  simp [parse_page, h, ParseResult.isRecord]

theorem C6_witness :
    parse_page demoEnv (some "") demoBase = ParseResult.emptyList := by
  exact (C6_empty_html demoEnv (some "") demoBase rfl).1

/-- C7: with a non-empty result store, export_data writes the JSON dump,
the CSV and a summary whose pages-scraped count is the visited-set size,
whose totals are the sums of the per-record list lengths, and whose start
and end times are the least and greatest record timestamps; it raises the
empty-aggregate error exactly when the result store is empty. -/
theorem C7_export_summary (visited : List String) (data : List PageRecord) :
    ((export_data visited data).2 = some ExportErr.emptyAggregate ↔ data = []) ∧
    (data ≠ [] → ∃ s : Summary,
      export_data visited data =
        ([Artifact.jsonDump data, Artifact.csvDump data, Artifact.summaryFile s],
         none) ∧
      s.pages_scraped = visited.length ∧
      s.total_links = (data.map (fun d => d.links.length)).sum ∧
      s.total_emails = (data.map (fun d => d.emails.length)).sum ∧
      s.total_phones = (data.map (fun d => d.phones.length)).sum ∧
      s.total_forms = (data.map (fun d => d.forms.length)).sum ∧
      s.start_time ∈ data.map PageRecord.timestamp ∧
      (∀ t ∈ data.map PageRecord.timestamp, s.start_time ≤ t) ∧
      s.end_time ∈ data.map PageRecord.timestamp ∧
      (∀ t ∈ data.map PageRecord.timestamp, t ≤ s.end_time)) := by
  cases data with
  | nil =>
    constructor
    · simp [export_data, strMin, strMax]
    · intro h
      exact absurd rfl h
  | cons d ds =>
    obtain ⟨mn, hmn⟩ := strMin_cons_some d.timestamp (ds.map PageRecord.timestamp)
    obtain ⟨mx, hmx⟩ := strMax_cons_some d.timestamp (ds.map PageRecord.timestamp)
    have hexp : export_data visited (d :: ds) =
        ([Artifact.jsonDump (d :: ds), Artifact.csvDump (d :: ds),
          Artifact.summaryFile
            { pages_scraped := visited.length
              total_links := ((d :: ds).map (fun x => x.links.length)).sum
              total_emails := ((d :: ds).map (fun x => x.emails.length)).sum
              total_phones := ((d :: ds).map (fun x => x.phones.length)).sum
              total_forms := ((d :: ds).map (fun x => x.forms.length)).sum
              start_time := mn
              end_time := mx }], none) := by
      unfold export_data
      rw [List.map_cons, hmn, hmx]
      rfl
    constructor
    · rw [hexp]
      simp
    · intro _
      obtain ⟨hmem1, hle1⟩ := strMin_spec ((d :: ds).map PageRecord.timestamp) mn hmn
      obtain ⟨hmem2, hle2⟩ := strMax_spec ((d :: ds).map PageRecord.timestamp) mx hmx
      exact ⟨_, hexp, rfl, rfl, rfl, rfl, rfl, hmem1, hle1, hmem2, hle2⟩

theorem C7_witness :
    (export_data [demoBase] [demoRecord]).2 = none ∧
    (export_data [demoBase] []).2 = some ExportErr.emptyAggregate := by
  have h := C7_export_summary [demoBase] [demoRecord]
  obtain ⟨s, hexp, _⟩ := h.2 (by simp)
  constructor
  · rw [hexp]
  · exact (C7_export_summary [demoBase] []).1.mpr rfl

/-- C8: rotate_proxy on a non-empty list of n proxies advances the cursor
to (current+1) mod n and returns the endpoint at the new cursor, so n
successive calls restore the cursor and the nth call returns the endpoint
at the starting cursor; the single per-session call crawl makes from the
initial cursor 0 returns the second proxy when n is at least 2; on an
empty list (in particular when the proxies file is absent, so
load_proxies yields []) every call returns None, a direct connection. -/
theorem C8_proxy_rotation (p : ProxyState) (hne : p.proxies ≠ [])
    (hc : p.current < p.proxies.length) :
    ((rotateN p.proxies.length p).proxies = p.proxies ∧
     (rotateN p.proxies.length p).current = p.current) ∧
    (rotate_proxy (rotateN (p.proxies.length - 1) p)).2 = p.proxies[p.current]? ∧
    (p.current = 0 → 2 ≤ p.proxies.length → (rotate_proxy p).2 = p.proxies[1]?) ∧
    (∀ q : ProxyState, q.proxies = [] →
      rotate_proxy q = (q, none) ∧ crawl_connector q = none) ∧
    load_proxies none = [] := by
  have hlen : 0 < p.proxies.length := List.length_pos.mpr hne
  obtain ⟨hp1, hc1⟩ := rotateN_spec p.proxies.length p hne hc
  obtain ⟨hp2, hc2⟩ := rotateN_spec (p.proxies.length - 1) p hne hc
  refine ⟨⟨hp1, ?_⟩, ?_, ?_, ?_, rfl⟩
  · rw [hc1, Nat.add_mod_right]
    exact Nat.mod_eq_of_lt hc
  · have hq := rotate_proxy_ne (rotateN (p.proxies.length - 1) p)
      (by rw [hp2]; exact hne)
    have hidx : (((rotateN (p.proxies.length - 1) p).current + 1) %
        (rotateN (p.proxies.length - 1) p).proxies.length) = p.current := by
      rw [hp2, hc2, Nat.mod_add_mod]
      have h3 : p.current + (p.proxies.length - 1) + 1 = p.current + p.proxies.length := by
        omega
      rw [h3, Nat.add_mod_right]
      exact Nat.mod_eq_of_lt hc
    rw [hq]
    dsimp only
    rw [hidx, hp2]
  · intro hcur h2
    have hone : (p.current + 1) % p.proxies.length = 1 := by
      rw [hcur]
      exact Nat.mod_eq_of_lt (by omega)
    rw [rotate_proxy_ne p hne]
    dsimp only
    rw [hone]
  · intro q hq
    constructor
    · unfold rotate_proxy
      rw [if_pos hq]
    · unfold crawl_connector
      rw [if_pos hq]

theorem C8_witness :
    (rotateN 3 ⟨["a", "b", "c"], 0⟩).current = 0 ∧
    (rotate_proxy ⟨["a", "b", "c"], 0⟩).2 = some "b" := by
  have h := C8_proxy_rotation ⟨["a", "b", "c"], 0⟩ (by decide) (by decide)
  refine ⟨h.1.2, ?_⟩
  have h3 := h.2.2.1 rfl (by decide)
  rw [h3]
  rfl

/-- C9: the enqueue filter consults only the visited set, so two links to
the same unvisited URL on one page are both pushed (the concrete run below
ends step one with the URL twice in the frontier); running on, the first
copy is fetched, the second is discarded by the dequeue-time visited
check, and in every run from the initial state the fetch trace is
duplicate-free, so duplicate frontier entries never cause a second fetch. -/
theorem C9_duplicate_enqueue :
    (crawlLoop demoEnv none 1 (initState demoBase)).queue = [demoLinkA, demoLinkA] ∧
    (crawlLoop demoEnv none 1 (initState demoBase)).visited = [demoBase] ∧
    (crawlLoop demoEnv none 3 (initState demoBase)).fetches = [demoBase, demoLinkA] ∧
    (crawlLoop demoEnv none 3 (initState demoBase)).queue = [] ∧
    (∀ env : CrawlEnv, ∀ maxPages : Option Nat, ∀ fuel : Nat,
      (crawlLoop env maxPages fuel (initState env.base_url)).fetches.Nodup) := by
  refine ⟨by decide, by decide, by decide, by decide, ?_⟩
  intro env maxPages fuel
  exact (crawlLoop_inv env maxPages fuel (initState env.base_url)
    (by intro x hx; simp [initState] at hx) (by simp [initState])).2

/-- C10: at export time with an empty result store, export_data still
produces the JSON dump and the CSV artifacts, then hits the
empty-aggregate error while computing the minimum timestamp, and the
summary artifact is never written. -/
theorem C10_export_order :
    export_data [demoBase] [] =
      ([Artifact.jsonDump [], Artifact.csvDump []], some ExportErr.emptyAggregate) ∧
    (∀ visited : List String,
      export_data visited [] =
        ([Artifact.jsonDump [], Artifact.csvDump []], some ExportErr.emptyAggregate)) := by
  exact ⟨rfl, fun visited => rfl⟩
